import Mathlib

/-!
Shallow embedding of `src/chatbot.py` (mountee32/chatbot).

The Python program is a single-file chat front-end.  The pieces with logic
content are embedded here as executable Lean definitions:

  * `truncate_messages`       — lines 145-158 (history window manager);
  * `follow_up_questions_from_content`
                              — lines 88-97, the parse/validate step of
                                `generate_follow_up_questions` applied to the
                                completion content string;
  * `runStream` / `process_llm_response`
                              — lines 99-143 (streamed response assembler);
  * `log_and_return_response` — lines 44-52 (buffered response fallback).

JSON values delivered by the external endpoint are modelled by the inductive
`Json` (numbers as `Int`: no claim depends on fractional values, only on
truthiness).  The Python standard-library parser `json.loads` is external
library code, so it is a parameter `loads : String → Option Json` of every
operation that parses (`none` models a raised `json.JSONDecodeError`).
Python exceptions that the source does not catch are made explicit with
`Except PyError`.
-/

/-- `s` begins with the character sequence `p` (character-level test used to
model Python `str.startswith`). -/
def charsLeading : List Char → List Char → Bool
  | [], _ => true
  | _ :: _, [] => false
  | p :: ps, c :: cs => p == c && charsLeading ps cs

/-- Python `s.startswith(p)`. -/
def strStartsWith (s p : String) : Bool := charsLeading p.toList s.toList

/-- Python `s.endswith(p)`. -/
def strEndsWith (s p : String) : Bool := charsLeading p.toList.reverse s.toList.reverse

/-- Python `s[n:]` (slicing at character `n`). -/
def strDrop (s : String) (n : Nat) : String := String.mk (s.toList.drop n)

/-- Drop leading whitespace characters. -/
def dropLeadingWs : List Char → List Char
  | [] => []
  | c :: cs => if c.isWhitespace then dropLeadingWs cs else c :: cs

/-- Python `s.strip()`: remove leading and trailing whitespace.  (Python also
strips a few rarer Unicode whitespace characters; the difference is
irrelevant to the claims.) -/
def pyStrip (s : String) : String :=
  String.mk ((dropLeadingWs (dropLeadingWs s.toList).reverse).reverse)

/-- Number of words of Python `s.split()` (split on runs of whitespace,
ignoring leading/trailing whitespace).  The second argument tracks whether
the scan is currently inside a word. -/
def countWords : List Char → Bool → Nat
  | [], _ => 0
  | c :: cs, inWord =>
    if c.isWhitespace then countWords cs false
    else (if inWord then 0 else 1) + countWords cs true

/-- Python `needle in hay` for character lists (substring test). -/
def charsHasSub (needle : List Char) : List Char → Bool
  | [] => charsLeading needle []
  | c :: rest => charsLeading needle (c :: rest) || charsHasSub needle rest

/-- A JSON value, as produced by `json.loads`.  Object fields are kept in
key-iteration (insertion) order, which is the order Python dict preserves. -/
inductive Json where
  | null : Json
  | bool : Bool → Json
  | num : Int → Json
  | str : String → Json
  | arr : List Json → Json
  | obj : List (String × Json) → Json

/-- The Python exceptions that can cross the boundaries of the embedded
functions. -/
inductive PyError where
  | typeError : PyError
  | keyError : PyError
  | indexError : PyError
  | attributeError : PyError
  | jsonDecodeError : PyError
  | httpError : PyError
  deriving DecidableEq

/-- Python truthiness of a JSON value (`if x:`). -/
def truthy : Json → Bool
  | Json.null => false
  | Json.bool b => b
  | Json.num n => n != 0
  | Json.str s => s != ""
  | Json.arr xs => !xs.isEmpty
  | Json.obj fs => !fs.isEmpty

/-- First-match lookup of a key in an object's field list (Python dicts from
`json.loads` have unique keys; first match is the dict lookup). -/
def lookupKey (key : String) : List (String × Json) → Option Json
  | [] => none
  | (k, v) :: rest => if k == key then some v else lookupKey key rest

/-- Python `key in data` for a string key.  On an object it is key
membership, on an array it is membership of the string value, on a string it
is a substring test; on the remaining scalars it raises `TypeError`. -/
def pyContains (key : String) : Json → Except PyError Bool
  | Json.obj fs => Except.ok (fs.any (fun kv => kv.1 == key))
  | Json.arr xs =>
      Except.ok (xs.any (fun j => match j with
        | Json.str s => s == key
        | _ => false))
  | Json.str s => Except.ok (charsHasSub key.toList s.toList)
  | _ => Except.error PyError.typeError

/-- Python `data[key]` for a string key: object lookup (`KeyError` when the
key is absent), `TypeError` on every other JSON value. -/
def pyGetItem (j : Json) (key : String) : Except PyError Json :=
  match j with
  | Json.obj fs =>
      match lookupKey key fs with
      | some v => Except.ok v
      | none => Except.error PyError.keyError
  | _ => Except.error PyError.typeError

/-- Python `data[0]`: head of an array (`IndexError` when empty), first
character of a string, `KeyError`-style failure on an object with only
string keys, `TypeError` on scalars. -/
def pyGetIndex0 : Json → Except PyError Json
  | Json.arr [] => Except.error PyError.indexError
  | Json.arr (x :: _) => Except.ok x
  | Json.str s =>
      match s.toList with
      | [] => Except.error PyError.indexError
      | c :: _ => Except.ok (Json.str (String.mk [c]))
  | Json.obj _ => Except.error PyError.keyError
  | _ => Except.error PyError.typeError

/-- A conversation message, i.e. the dict
`\x7b"role": ..., "content": ...\x7d` the source appends to
`st.session_state.messages`. -/
structure Message where
  role : String
  content : String
  deriving DecidableEq

/-- `MAX_TOKENS` constant, line 12 of the source. -/
def MAX_TOKENS : Nat := 4096

/-- `TOKEN_MARGIN` constant, line 13 of the source. -/
def TOKEN_MARGIN : Nat := 512

/-- `len(message['content'].split())`, line 151: number of maximal
whitespace-free words of the content. -/
def wordCost (m : Message) : Nat :=
  countWords m.content.toList false

/-- The loop of `truncate_messages` (lines 150-156): walk `l` (the reversed
log), keep accumulating while the budget check passes, stop at the first
violation.  `acc` is the `truncated_messages` list built by `insert(0, ·)`. -/
def truncateGo (maxTokens margin : Nat) : List Message → Nat → List Message → List Message
  | [], _, acc => acc
  | m :: rest, total, acc =>
    if total + wordCost m + margin ≤ maxTokens then
      truncateGo maxTokens margin rest (total + wordCost m) (m :: acc)
    else acc

/-- `truncate_messages` (lines 145-158). -/
def truncate_messages (messages : List Message) : List Message :=
  truncateGo MAX_TOKENS TOKEN_MARGIN messages.reverse 0 []

/-- The list comprehension `[q for q in questions_data.values() if q.strip()]`
(line 92): keep the values whose `strip()` is non-empty.  Calling `strip` on
a non-string value raises `AttributeError`, which line 95's
`except (json.JSONDecodeError, KeyError)` does not catch. -/
def collectQuestions : List Json → Except PyError (List String)
  | [] => Except.ok []
  | Json.str s :: rest =>
      match collectQuestions rest with
      | Except.ok tail => Except.ok (if pyStrip s ≠ "" then s :: tail else tail)
      | Except.error e => Except.error e
  | _ :: _ => Except.error PyError.attributeError

/-- Lines 89-97 of `generate_follow_up_questions`, applied to the completion
content string extracted on line 88: strip, shape-sniff for a JSON object,
parse with `loads`, collect the non-empty string values, and fall back to
`[]` (a caught `json.JSONDecodeError` also lands on line 97's `return []`).
An `AttributeError` from a non-string value escapes. -/
def follow_up_questions_from_content (loads : String → Option Json)
    (content0 : String) : Except PyError (List String) :=
  let content := pyStrip content0
  if strStartsWith content "\x7b" && strEndsWith content "\x7d" then
    match loads content with
    | none => Except.ok []
    | some (Json.obj fields) =>
        match collectQuestions (fields.map Prod.snd) with
        | Except.ok qs => Except.ok qs
        | Except.error e => Except.error e
    | some _ => Except.error PyError.attributeError
  else Except.ok []

/-- The non-empty string values of an object's fields, in key-iteration
order — the sequence the spec says the synthesizer returns. -/
def strValuesNonEmpty : List (String × Json) → List String
  | [] => []
  | (_, Json.str s) :: rest =>
      if pyStrip s ≠ "" then s :: strValuesNonEmpty rest else strValuesNonEmpty rest
  | _ :: rest => strValuesNonEmpty rest

/-- What the streaming loop does with one decoded line (lines 114-131):
skip empty lines, halt at the `data: [DONE]` sentinel, and on a `data: `
record parse the payload — a parse failure is logged and skipped, a parsed
delta content is pushed, a payload on which the `in` tests raise escapes. -/
inductive LineAction where
  | skip : LineAction
  | halt : LineAction
  | push : String → LineAction
  | fail : PyError → LineAction

/-- Lines 123-127: extract `choices[0].delta.content` from a parsed `data: `
payload, mirroring the Python truthiness and `in` tests exactly.  `+=` with
a non-string content raises `TypeError`. -/
def deltaFromData (data : Json) : Except PyError (Option String) := do
  let c ← pyContains "choices" data
  if c then do
    let choices ← pyGetItem data "choices"
    if truthy choices then do
      let choice ← pyGetIndex0 choices
      let d ← pyContains "delta" choice
      if d then do
        let delta ← pyGetItem choice "delta"
        let cc ← pyContains "content" delta
        if cc then do
          let content ← pyGetItem delta "content"
          match content with
          | Json.str s => pure (some s)
          | _ => Except.error PyError.typeError
        else pure none
      else pure none
    else pure none
  else pure none

/-- Classify one decoded line of the stream (lines 114-131). -/
def classifyLine (loads : String → Option Json) (l : String) : LineAction :=
  if l = "" then LineAction.skip
  else if l = "data: [DONE]" then LineAction.halt
  else if strStartsWith l "data: " then
    match loads (strDrop l 6) with
    | none => LineAction.skip
    | some d =>
        match deltaFromData d with
        | Except.ok (some s) => LineAction.push s
        | Except.ok none => LineAction.skip
        | Except.error e => LineAction.fail e
  else LineAction.skip

/-- The `for line in response.iter_lines()` loop (lines 113-131).  `acc` is
`full_response`, `calls` records every argument passed to the display sink
`st.session_state.response_container.markdown`, in invocation order.  The
returned `Bool` is `true` when the iterator was exhausted (so a transport
exception pending at the source would have fired) and `false` when the loop
left by `break` at the sentinel. -/
def runStream (loads : String → Option Json) :
    List String → String → List String → Except PyError (String × List String × Bool)
  | [], acc, calls => Except.ok (acc, calls, true)
  | l :: rest, acc, calls =>
    match classifyLine loads l with
    | LineAction.skip => runStream loads rest acc calls
    | LineAction.halt => Except.ok (acc, calls, false)
    | LineAction.push s => runStream loads rest (acc ++ s) (calls ++ [acc ++ s])
    | LineAction.fail e => Except.error e

/-- The delta contents the loop successfully parses from the lines, in
arrival order, stopping at the sentinel (the reference sequence for the
assembled text). -/
def specDeltas (loads : String → Option Json) : List String → List String
  | [] => []
  | l :: rest =>
    match classifyLine loads l with
    | LineAction.skip => specDeltas loads rest
    | LineAction.halt => []
    | LineAction.push s => s :: specDeltas loads rest
    | LineAction.fail _ => []

/-- Concatenation of a list of strings, in order. -/
def concatAll : List String → String
  | [] => ""
  | s :: rest => s ++ concatAll rest

/-- The successive values shown by the display sink when the deltas `ds`
arrive on top of an already accumulated `acc`. -/
def sinkTrace (acc : String) : List String → List String
  | [] => []
  | s :: rest => (acc ++ s) :: sinkTrace (acc ++ s) rest

/-- The fixed error string committed when a transport exception interrupts
the stream (line 135). -/
def errorString : String := "An error occurred while processing your request."

/-- Outcome of the streaming `make_request` when a response handle was
obtained: the decoded lines the iterator delivers, and whether a
`requests.exceptions.RequestException` is raised when the iterator is
advanced past them (a mid-stream transport failure). -/
structure StreamOutcome where
  lines : List String
  raisesAfter : Bool

/-- What `process_llm_response` leaves behind: the updated
`st.session_state.messages`, the arguments passed to the display sink, and
the log passed to `generate_follow_up_questions` on line 142. -/
structure ProcResult where
  messages : List Message
  sink_calls : List String
  follow_up_arg : List Message
  deriving DecidableEq

/-- `process_llm_response` (lines 99-143) from the point the streaming
request returns.  When `resp` is `none`, `make_request` caught a transport
exception and returned `None`, so the loop is skipped and the empty
`full_response` is committed.  Otherwise the lines are folded; a transport
exception that fires mid-iteration replaces the buffer with `errorString`;
either way exactly one assistant message is appended (line 139) and the
follow-up synthesizer is invoked on the updated log (line 142).  An
exception the source does not catch escapes as `Except.error` before any
commit. -/
def process_llm_response (loads : String → Option Json)
    (resp : Option StreamOutcome) (msgs : List Message) :
    Except PyError ProcResult :=
  match resp with
  | none =>
      let newMsgs := msgs ++ [Message.mk "assistant" ""]
      Except.ok (ProcResult.mk newMsgs [] newMsgs)
  | some st =>
      match runStream loads st.lines "" [] with
      | Except.error e => Except.error e
      | Except.ok (acc, calls, exhausted) =>
          let final := if st.raisesAfter && exhausted then errorString else acc
          let newMsgs := msgs ++ [Message.mk "assistant" final]
          Except.ok (ProcResult.mk newMsgs calls newMsgs)

/-- A buffered HTTP response: status code, and the JSON body (`none` when
`response.json()` would raise because the body is not valid JSON). -/
structure HttpResponse where
  status : Nat
  body : Option Json

/-- `response.raise_for_status()` (line 45): raises on a 4xx/5xx status. -/
def raise_for_status (r : HttpResponse) : Except PyError Unit :=
  if 400 ≤ r.status then Except.error PyError.httpError else Except.ok ()

/-- The fixed fallback greeting (lines 52 and 72). -/
def fallbackGreeting : String := "Hello! How can I help you today? 😊"

/-- `log_and_return_response` (lines 44-52): raise for status, decode the
body, and return `choices[0].message.content` when the body has a truthy
`choices`, the fixed fallback greeting otherwise. -/
def log_and_return_response (r : HttpResponse) : Except PyError Json :=
  match raise_for_status r with
  | Except.error e => Except.error e
  | Except.ok _ =>
    match r.body with
    | none => Except.error PyError.jsonDecodeError
    | some rd =>
      if truthy rd then
        match pyContains "choices" rd with
        | Except.error e => Except.error e
        | Except.ok false => Except.ok (Json.str fallbackGreeting)
        | Except.ok true =>
          match pyGetItem rd "choices" with
          | Except.error e => Except.error e
          | Except.ok choices =>
            if truthy choices then
              match pyGetIndex0 choices with
              | Except.error e => Except.error e
              | Except.ok c0 =>
                match pyGetItem c0 "message" with
                | Except.error e => Except.error e
                | Except.ok msg =>
                  match pyGetItem msg "content" with
                  | Except.error e => Except.error e
                  | Except.ok content => Except.ok content
            else Except.ok (Json.str fallbackGreeting)
      else Except.ok (Json.str fallbackGreeting)

/-- `generate_initial_message` (lines 62-72): when the request failed and no
handle was returned, substitute the fixed greeting; otherwise defer to
`log_and_return_response`. -/
def generate_initial_message (resp : Option HttpResponse) : Except PyError Json :=
  match resp with
  | some r => log_and_return_response r
  | none => Except.ok (Json.str fallbackGreeting)

/-! ### Concrete stand-ins for `json.loads`, used to exercise the claims on
the spec's example inputs -/

/-- The payload of a well-formed streamed chunk carrying delta text `s`. -/
def deltaChunk (s : String) : Json :=
  Json.obj [("choices", Json.arr [Json.obj [("delta", Json.obj [("content", Json.str s)])]])]

/-- The JSON text of a well-formed streamed chunk carrying delta text `s`. -/
def payloadOf (s : String) : String :=
  "\x7b\"choices\":[\x7b\"delta\":\x7b\"content\":\"" ++ s ++ "\"\x7d\x7d]\x7d"

/-- A full streamed `data: ` line carrying delta text `s`. -/
def lineOf (s : String) : String := "data: " ++ payloadOf s

/-- A concrete stand-in for `json.loads` that parses the three demo chunk
payloads `Hel`, `lo, `, `world` and rejects everything else. -/
def loadsDemo : String → Option Json := fun t =>
  if t = payloadOf "Hel" then some (deltaChunk "Hel")
  else if t = payloadOf "lo, " then some (deltaChunk "lo, ")
  else if t = payloadOf "world" then some (deltaChunk "world")
  else none

/-- A concrete stand-in for `json.loads` parsing the C6 example object. -/
def loadsC6 : String → Option Json := fun t =>
  if t = "\x7b\"q1\":\"A?\",\"q2\":\"\",\"q3\":\"B?\"\x7d" then
    some (Json.obj [("q1", Json.str "A?"), ("q2", Json.str ""), ("q3", Json.str "B?")])
  else none

/-- A concrete stand-in for `json.loads` parsing an object with a numeric
value. -/
def loadsNum : String → Option Json := fun t =>
  if t = "\x7b\"q1\": 1\x7d" then some (Json.obj [("q1", Json.num 1)]) else none

/-- A concrete stand-in for `json.loads` parsing a five-question object. -/
def loads5 : String → Option Json := fun t =>
  if t = "\x7b\"q1\":\"A\",\"q2\":\"B\",\"q3\":\"C\",\"q4\":\"D\",\"q5\":\"E\"\x7d" then
    some (Json.obj [("q1", Json.str "A"), ("q2", Json.str "B"), ("q3", Json.str "C"),
      ("q4", Json.str "D"), ("q5", Json.str "E")])
  else none

/-! ## Properties of the history window manager -/

/-- The loop returns some reversed initial segment of its input on top of
the accumulator: the window is contiguous and keeps the scan order. -/
theorem truncateGo_split (maxT mar : Nat) :
    ∀ (l : List Message) (total : Nat) (acc : List Message),
      ∃ l1 l2, l = l1 ++ l2 ∧ truncateGo maxT mar l total acc = l1.reverse ++ acc := by
  intro l
  induction l with
  | nil => intro total acc; exact ⟨[], [], rfl, rfl⟩
  | cons m rest ih =>
    intro total acc
    by_cases h : total + wordCost m + mar ≤ maxT
    · obtain ⟨l1, l2, hsplit, hres⟩ := ih (total + wordCost m) (m :: acc)
      refine ⟨m :: l1, l2, by rw [List.cons_append, ← hsplit], ?_⟩
      rw [truncateGo, if_pos h, hres]
      simp
    · exact ⟨[], m :: rest, rfl, by rw [truncateGo, if_neg h]; simp⟩

/-- Budget invariant of the loop: unless nothing at all was added beyond the
incoming accumulator, the total word cost of the result plus the margin
stays within the budget. -/
theorem truncateGo_budget (maxT mar : Nat) :
    ∀ (l : List Message) (total : Nat) (acc : List Message),
      (acc.map wordCost).sum ≤ total →
      ((truncateGo maxT mar l total acc).map wordCost).sum + mar ≤ maxT ∨
        truncateGo maxT mar l total acc = acc := by
  intro l
  induction l with
  | nil => intro total acc _; exact Or.inr rfl
  | cons m rest ih =>
    intro total acc hacc
    by_cases h : total + wordCost m + mar ≤ maxT
    · have hacc' : (((m :: acc)).map wordCost).sum ≤ total + wordCost m := by
        simp only [List.map_cons, List.sum_cons]
        omega
      rcases ih (total + wordCost m) (m :: acc) hacc' with h1 | h1
      · left
        rw [truncateGo, if_pos h]
        exact h1
      · left
        rw [truncateGo, if_pos h, h1]
        simp only [List.map_cons, List.sum_cons]
        omega
    · right
      rw [truncateGo, if_neg h]

/-- Every message the loop adds fits the budget by itself. -/
theorem truncateGo_mem (maxT mar : Nat) :
    ∀ (l : List Message) (total : Nat) (acc : List Message) (m : Message),
      m ∈ truncateGo maxT mar l total acc →
      m ∈ acc ∨ wordCost m + mar ≤ maxT := by
  intro l
  induction l with
  | nil => intro total acc m hm; exact Or.inl hm
  | cons m' rest ih =>
    intro total acc m hm
    by_cases h : total + wordCost m' + mar ≤ maxT
    · rw [truncateGo, if_pos h] at hm
      rcases ih (total + wordCost m') (m' :: acc) m hm with hin | hfit
      · rcases List.mem_cons.mp hin with heq | hin'
        · subst heq
          right
          omega
        · exact Or.inl hin'
      · exact Or.inr hfit
    · rw [truncateGo, if_neg h] at hm
      exact Or.inl hm

/-- When the whole remaining list fits the budget, the loop takes all of it. -/
theorem truncateGo_all (maxT mar : Nat) :
    ∀ (l : List Message) (total : Nat) (acc : List Message),
      total + (l.map wordCost).sum + mar ≤ maxT →
      truncateGo maxT mar l total acc = l.reverse ++ acc := by
  intro l
  induction l with
  | nil => intro total acc _; rfl
  | cons m rest ih =>
    intro total acc hall
    simp only [List.map_cons, List.sum_cons] at hall
    have h : total + wordCost m + mar ≤ maxT := by omega
    rw [truncateGo, if_pos h, ih (total + wordCost m) (m :: acc) (by omega)]
    simp

/-- C1: `truncate_messages` returns a contiguous suffix of the log in
original chronological order, the cumulative whitespace-word cost of the
window plus `TOKEN_MARGIN` never exceeds `MAX_TOKENS`, and a message whose
own cost plus the margin exceeds the budget is never part of the window
(so the window may be empty). -/
theorem truncate_window_correct (messages : List Message) :
    (∃ dropped, messages = dropped ++ truncate_messages messages) ∧
    ((truncate_messages messages).map wordCost).sum + TOKEN_MARGIN ≤ MAX_TOKENS ∧
    ∀ m ∈ truncate_messages messages, wordCost m + TOKEN_MARGIN ≤ MAX_TOKENS := by
  refine ⟨?_, ?_, ?_⟩
  · obtain ⟨l1, l2, hsplit, hres⟩ :=
      truncateGo_split MAX_TOKENS TOKEN_MARGIN messages.reverse 0 []
    refine ⟨l2.reverse, ?_⟩
    have hres' : truncate_messages messages = l1.reverse := by
      unfold truncate_messages
      rw [hres]
      simp
    rw [hres']
    have hm := congrArg List.reverse hsplit
    simpa using hm
  · rcases truncateGo_budget MAX_TOKENS TOKEN_MARGIN messages.reverse 0 [] (by simp) with h | h
    · exact h
    · unfold truncate_messages
      rw [h]
      decide
  · intro m hm
    rcases truncateGo_mem MAX_TOKENS TOKEN_MARGIN messages.reverse 0 [] m hm with h | h
    · simp at h
    · exact h

/-- Witness for C1 at the one-message log `[user "hi"]`: the message is in
the window, and the theorem yields its budget bound. -/
theorem truncate_window_correct_witness :
    wordCost (Message.mk "user" "hi") + TOKEN_MARGIN ≤ MAX_TOKENS :=
  (truncate_window_correct [Message.mk "user" "hi"]).2.2 (Message.mk "user" "hi") (by decide)

/-- C7: truncation is idempotent — truncating an already-truncated window
with the same budget and margin returns the same window. -/
theorem truncate_idempotent (messages : List Message) :
    truncate_messages (truncate_messages messages) = truncate_messages messages := by
  rcases truncateGo_budget MAX_TOKENS TOKEN_MARGIN messages.reverse 0 [] (by simp) with h | h
  · have h' : ((truncate_messages messages).map wordCost).sum + TOKEN_MARGIN ≤ MAX_TOKENS := h
    have hsum : (((truncate_messages messages).reverse.map wordCost)).sum + TOKEN_MARGIN ≤
        MAX_TOKENS := by
      rw [List.map_reverse, List.sum_reverse]
      exact h'
    have hall := truncateGo_all MAX_TOKENS TOKEN_MARGIN
      (truncate_messages messages).reverse 0 [] (by omega)
    calc truncate_messages (truncate_messages messages)
        = truncateGo MAX_TOKENS TOKEN_MARGIN (truncate_messages messages).reverse 0 [] := rfl
      _ = (truncate_messages messages).reverse.reverse ++ [] := hall
      _ = truncate_messages messages := by simp
  · have h' : truncate_messages messages = [] := h
    rw [h']
    rfl

/-! ## Properties of the response assembler -/

/-- Length of the sink trace: one sink invocation per delta. -/
theorem sinkTrace_length : ∀ (ds : List String) (acc : String),
    (sinkTrace acc ds).length = ds.length := by
  intro ds
  induction ds with
  | nil => intro acc; rfl
  | cons s rest ih => intro acc; simp [sinkTrace, ih (acc ++ s)]

/-- Each entry of the sink trace extends the previous one. -/
theorem sinkTrace_chain : ∀ (ds : List String) (acc : String),
    List.Chain' (fun a b => ∃ t, b = a ++ t) (sinkTrace acc ds) := by
  intro ds
  induction ds with
  | nil => intro acc; simp [sinkTrace]
  | cons s rest ih =>
    intro acc
    rw [sinkTrace, List.chain'_cons']
    refine ⟨?_, ih (acc ++ s)⟩
    intro b hb
    cases rest with
    | nil => simp [sinkTrace] at hb
    | cons s' r' =>
      simp [sinkTrace] at hb
      exact ⟨s', hb.symm⟩

/-- A successful run of the streaming loop accumulates exactly the
concatenation of the parsed deltas and shows exactly the growing trace. -/
theorem runStream_ok_spec (loads : String → Option Json) :
    ∀ (lines : List String) (acc : String) (calls : List String)
      (res : String × List String × Bool),
      runStream loads lines acc calls = Except.ok res →
      res.1 = acc ++ concatAll (specDeltas loads lines) ∧
      res.2.1 = calls ++ sinkTrace acc (specDeltas loads lines) := by
  intro lines
  induction lines with
  | nil =>
    intro acc calls res h
    rw [runStream] at h
    cases h
    exact ⟨by simp [specDeltas, concatAll, String.append_empty], by simp [specDeltas, sinkTrace]⟩
  | cons l rest ih =>
    intro acc calls res h
    rw [runStream] at h
    cases hcl : classifyLine loads l with
    | skip =>
      rw [hcl] at h
      obtain ⟨h1, h2⟩ := ih acc calls res h
      exact ⟨by rw [h1, specDeltas, hcl], by rw [h2, specDeltas, hcl]⟩
    | halt =>
      rw [hcl] at h
      cases h
      exact ⟨by simp [specDeltas, hcl, concatAll, String.append_empty],
        by simp [specDeltas, hcl, sinkTrace]⟩
    | push s =>
      rw [hcl] at h
      obtain ⟨h1, h2⟩ := ih (acc ++ s) (calls ++ [acc ++ s]) res h
      constructor
      · rw [h1, specDeltas, hcl]
        rw [concatAll, ← String.append_assoc]
      · rw [h2, specDeltas, hcl]
        rw [sinkTrace]
        simp
    | fail e =>
      rw [hcl] at h
      cases h

/-- C2: for every stream of lines ending in the `data: [DONE]` sentinel on
which the loop completes, the assembled text equals the concatenation, in
arrival order, of the successfully parsed delta contents, and the display
sink is invoked exactly once per parsed delta, each time with a string
extending the previously shown one. -/
theorem stream_assembly_correct (loads : String → Option Json) (pre : List String)
    (acc : String) (calls : List String) (exhausted : Bool)
    (h : runStream loads (pre ++ ["data: [DONE]"]) "" [] =
      Except.ok (acc, calls, exhausted)) :
    acc = concatAll (specDeltas loads (pre ++ ["data: [DONE]"])) ∧
    calls = sinkTrace "" (specDeltas loads (pre ++ ["data: [DONE]"])) ∧
    calls.length = (specDeltas loads (pre ++ ["data: [DONE]"])).length ∧
    List.Chain' (fun a b => ∃ t, b = a ++ t) calls := by
  obtain ⟨h1, h2⟩ := runStream_ok_spec loads _ "" [] (acc, calls, exhausted) h
  simp only at h1 h2
  rw [String.empty_append] at h1
  rw [List.nil_append] at h2
  refine ⟨h1, h2, ?_, ?_⟩
  · rw [h2, sinkTrace_length]
  · rw [h2]
    exact sinkTrace_chain _ ""

/-- Witness for C2: the chunks `Hel`, `lo, `, `world` followed by the
sentinel assemble to `Hello, world` with three monotonically-extending sink
invocations. -/
theorem stream_assembly_correct_witness :
    "Hello, world" =
      concatAll (specDeltas loadsDemo
        ([lineOf "Hel", lineOf "lo, ", lineOf "world"] ++ ["data: [DONE]"])) ∧
    ["Hel", "Hello, ", "Hello, world"] =
      sinkTrace "" (specDeltas loadsDemo
        ([lineOf "Hel", lineOf "lo, ", lineOf "world"] ++ ["data: [DONE]"])) ∧
    (["Hel", "Hello, ", "Hello, world"] : List String).length =
      (specDeltas loadsDemo
        ([lineOf "Hel", lineOf "lo, ", lineOf "world"] ++ ["data: [DONE]"])).length ∧
    List.Chain' (fun a b => ∃ t, b = a ++ t) ["Hel", "Hello, ", "Hello, world"] :=
  stream_assembly_correct loadsDemo [lineOf "Hel", lineOf "lo, ", lineOf "world"]
    "Hello, world" ["Hel", "Hello, ", "Hello, world"] false (by rfl)

/-- C3: whenever `process_llm_response` completes on an obtained streaming
handle — sentinel end, natural close, or a transport exception that fired
mid-stream — it appends exactly one assistant message to the log; and when
the transport exception fired after the delivered lines were exhausted, the
committed content is the fixed error string rather than the partial
buffer. -/
theorem stream_commit_exactly_one (loads : String → Option Json) (st : StreamOutcome)
    (msgs : List Message) (r : ProcResult)
    (h : process_llm_response loads (some st) msgs = Except.ok r) :
    (∃ c, r.messages = msgs ++ [Message.mk "assistant" c]) ∧
    (∀ acc calls, runStream loads st.lines "" [] = Except.ok (acc, calls, true) →
      st.raisesAfter = true →
      r.messages = msgs ++ [Message.mk "assistant" errorString]) := by
  rw [process_llm_response] at h
  cases hrs : runStream loads st.lines "" [] with
  | error e =>
    rw [hrs] at h
    cases h
  | ok trip =>
    obtain ⟨acc, calls, exh⟩ := trip
    rw [hrs] at h
    cases h
    constructor
    · exact ⟨_, rfl⟩
    · intro acc' calls' hrun hra
      have hpair : (acc, calls, exh) = (acc', calls', true) :=
        Except.ok.inj hrun
      have hexh : exh = true := congrArg (fun p => p.2.2) hpair
      simp [hra, hexh]

/-- Witness for C3: one delivered chunk `Hel`, then a transport exception;
the committed message is the fixed error string, not the partial buffer. -/
theorem stream_commit_exactly_one_witness :
    (ProcResult.mk [Message.mk "assistant" errorString] ["Hel"]
        [Message.mk "assistant" errorString]).messages =
      [] ++ [Message.mk "assistant" errorString] ∧
    errorString ≠ "Hel" :=
  ⟨(stream_commit_exactly_one loadsDemo (StreamOutcome.mk [lineOf "Hel"] true) []
      (ProcResult.mk [Message.mk "assistant" errorString] ["Hel"]
        [Message.mk "assistant" errorString]) (by rfl)).2
    "Hel" ["Hel"] (by rfl) rfl, by decide⟩

/-- C9: a `data: ` line whose payload is not valid JSON is skipped — the
loop's entire result (accumulated text, sink invocations, exit mode) is the
same as if the malformed line were absent, and processing continues with
the following lines. -/
theorem malformed_line_skipped (loads : String → Option Json) (bad : String)
    (hpre : strStartsWith bad "data: " = true)
    (hload : loads (strDrop bad 6) = none)
    (hsent : bad ≠ "data: [DONE]") :
    ∀ (pre post : List String) (acc : String) (calls : List String),
      runStream loads (pre ++ bad :: post) acc calls =
        runStream loads (pre ++ post) acc calls := by
  have hne : bad ≠ "" := by
    intro hb
    rw [hb] at hpre
    exact absurd hpre (by decide)
  have hskip : classifyLine loads bad = LineAction.skip := by
    rw [classifyLine, if_neg hne, if_neg hsent, if_pos hpre, hload]
  intro pre
  induction pre with
  | nil =>
    intro post acc calls
    rw [List.nil_append, List.nil_append, runStream, hskip]
  | cons p rest ih =>
    intro post acc calls
    rw [List.cons_append, List.cons_append, runStream, runStream]
    cases classifyLine loads p with
    | skip => exact ih post acc calls
    | halt => rfl
    | push s => exact ih post (acc ++ s) (calls ++ [acc ++ s])
    | fail e => rfl

/-- Witness for C9: an invalid-JSON `data: ` line between two well-formed
chunks leaves the run unchanged. -/
theorem malformed_line_skipped_witness :
    runStream loadsDemo [lineOf "Hel", "data: oops", lineOf "lo, "] "" [] =
      runStream loadsDemo [lineOf "Hel", lineOf "lo, "] "" [] :=
  malformed_line_skipped loadsDemo "data: oops" (by decide) (by rfl) (by decide)
    [lineOf "Hel"] [lineOf "lo, "] "" []

/-- C10: when the streaming request yields no response handle at all,
`process_llm_response` still appends exactly one assistant message, whose
content is the empty string — not the fixed error string and not the
fallback greeting — and the follow-up synthesizer is invoked on the updated
log. -/
theorem no_handle_commits_empty (loads : String → Option Json) (msgs : List Message) :
    process_llm_response loads none msgs =
      Except.ok (ProcResult.mk (msgs ++ [Message.mk "assistant" ""]) []
        (msgs ++ [Message.mk "assistant" ""])) ∧
    ("" : String) ≠ errorString ∧ ("" : String) ≠ fallbackGreeting :=
  ⟨rfl, by decide, by decide⟩

/-! ## Properties of the follow-up synthesizer -/

/-- The comprehension keeps at most one question per value. -/
theorem collectQuestions_length : ∀ (vs : List Json) (qs : List String),
    collectQuestions vs = Except.ok qs → qs.length ≤ vs.length := by
  intro vs
  induction vs with
  | nil =>
    intro qs h
    cases h
    simp
  | cons v rest ih =>
    intro qs h
    cases v with
    | str s =>
      rw [collectQuestions] at h
      cases hcr : collectQuestions rest with
      | error e =>
        rw [hcr] at h
        cases h
      | ok tail =>
        rw [hcr] at h
        replace h : Except.ok (if pyStrip s ≠ "" then s :: tail else tail) =
            Except.ok qs := h
        have htail := ih tail hcr
        by_cases hs : pyStrip s ≠ ""
        · rw [if_pos hs] at h
          cases h
          simp only [List.length_cons]
          omega
        · rw [if_neg hs] at h
          cases h
          simp only [List.length_cons]
          omega
    | null => cases h
    | bool b => cases h
    | num n => cases h
    | arr xs => cases h
    | obj fs => cases h

/-- When every value is a string, the comprehension succeeds and returns
exactly the non-whitespace values in key-iteration order. -/
theorem collectQuestions_strings : ∀ (fields : List (String × Json)),
    (∀ kv ∈ fields, ∃ s, kv.2 = Json.str s) →
    collectQuestions (fields.map Prod.snd) = Except.ok (strValuesNonEmpty fields) := by
  intro fields
  induction fields with
  | nil => intro _; rfl
  | cons kv rest ih =>
    intro hall
    obtain ⟨s, hs⟩ := hall kv (List.mem_cons_self kv rest)
    obtain ⟨k, v⟩ := kv
    simp only at hs
    subst hs
    have ihr := ih (fun kv2 hm => hall kv2 (List.mem_cons_of_mem _ hm))
    rw [List.map_cons]
    simp only [collectQuestions, ihr, strValuesNonEmpty]

/-- C6: when the stripped response content is brace-delimited and parses as
a JSON object all of whose values are strings, the synthesizer returns
exactly the non-empty (non-whitespace-only) values in the object's
key-iteration order; and the content `"not json"` yields `[]` without
raising. -/
theorem follow_up_object_values :
    (∀ (loads : String → Option Json) (content : String) (fields : List (String × Json)),
      strStartsWith (pyStrip content) "\x7b" = true →
      strEndsWith (pyStrip content) "\x7d" = true →
      loads (pyStrip content) = some (Json.obj fields) →
      (∀ kv ∈ fields, ∃ s, kv.2 = Json.str s) →
      follow_up_questions_from_content loads content =
        Except.ok (strValuesNonEmpty fields)) ∧
    (∀ loads, follow_up_questions_from_content loads "not json" = Except.ok []) := by
  constructor
  · intro loads content fields h1 h2 h3 h4
    simp only [follow_up_questions_from_content, h1, h2, Bool.and_self, if_true, h3,
      collectQuestions_strings fields h4]
  · intro loads
    rfl

/-- Witness for C6 at the spec's example: the empty value is dropped and
order is preserved. -/
theorem follow_up_object_values_witness :
    follow_up_questions_from_content loadsC6 "\x7b\"q1\":\"A?\",\"q2\":\"\",\"q3\":\"B?\"\x7d" =
      Except.ok ["A?", "B?"] := by
  have h := follow_up_object_values.1 loadsC6 "\x7b\"q1\":\"A?\",\"q2\":\"\",\"q3\":\"B?\"\x7d"
    [("q1", Json.str "A?"), ("q2", Json.str ""), ("q3", Json.str "B?")]
    (by rfl) (by rfl) (by rfl) ?_
  · exact h
  · intro kv hm
    simp only [List.mem_cons, List.not_mem_nil, or_false] at hm
    rcases hm with rfl | rfl | rfl
    · exact ⟨"A?", rfl⟩
    · exact ⟨"", rfl⟩
    · exact ⟨"B?", rfl⟩

/-- Counterexample to C4 as stated: on the content `'\x7b"q1": 1\x7d'` —
valid JSON whose object value is not a string — the synthesizer raises
`AttributeError` (from `q.strip()` on an `int`), which line 95's
`except (json.JSONDecodeError, KeyError)` does not catch, so an exception
escapes the boundary. -/
theorem follow_up_nonstring_value_raises :
    follow_up_questions_from_content loadsNum "\x7b\"q1\": 1\x7d" =
      Except.error PyError.attributeError := by rfl

/-- C4 (amended): the synthesizer returns a list and lets no exception
escape on non-JSON text, JSON parse failures, or parsed objects all of
whose values are strings; only a parsed object with a non-string value can
raise (`AttributeError`) past the boundary. -/
theorem follow_up_no_raise_for_string_object (loads : String → Option Json)
    (content : String)
    (h : ∀ j, loads (pyStrip content) = some j →
      ∃ fields, j = Json.obj fields ∧ ∀ kv ∈ fields, ∃ s, kv.2 = Json.str s) :
    ∃ qs, follow_up_questions_from_content loads content = Except.ok qs := by
  simp only [follow_up_questions_from_content]
  by_cases hb : (strStartsWith (pyStrip content) "\x7b" &&
      strEndsWith (pyStrip content) "\x7d") = true
  · rw [if_pos hb]
    cases hld : loads (pyStrip content) with
    | none => exact ⟨[], rfl⟩
    | some j =>
      obtain ⟨fields, rfl, hall⟩ := h j hld
      refine ⟨strValuesNonEmpty fields, ?_⟩
      show (match collectQuestions (fields.map Prod.snd) with
        | Except.ok qs => Except.ok qs
        | Except.error e => Except.error e) = Except.ok (strValuesNonEmpty fields)
      rw [collectQuestions_strings fields hall]
  · rw [if_neg hb]
    exact ⟨[], rfl⟩

/-- Witness for amended C4: non-JSON content produces `Except.ok`. -/
theorem follow_up_no_raise_for_string_object_witness :
    ∃ qs, follow_up_questions_from_content (fun _ => none) "not json" = Except.ok qs :=
  follow_up_no_raise_for_string_object (fun _ => none) "not json"
    (fun _ hj => Option.noConfusion hj)

/-- Counterexample to C5 as stated: a parsed object with five non-empty
string values yields five questions — the code never caps the list at 4. -/
theorem follow_up_five_strings :
    follow_up_questions_from_content loads5
        "\x7b\"q1\":\"A\",\"q2\":\"B\",\"q3\":\"C\",\"q4\":\"D\",\"q5\":\"E\"\x7d" =
      Except.ok ["A", "B", "C", "D", "E"] ∧
    ¬ ((["A", "B", "C", "D", "E"] : List String).length ≤ 4) :=
  ⟨rfl, by decide⟩

/-- C5 (amended): the synthesizer returns at most as many strings as the
parsed JSON object has key/value pairs — so at most 4 only when the object
itself has at most 4 pairs; no cap of 4 is enforced by the code. -/
theorem follow_up_at_most_field_count (loads : String → Option Json)
    (content : String) (fields : List (String × Json)) (qs : List String)
    (hload : loads (pyStrip content) = some (Json.obj fields))
    (hok : follow_up_questions_from_content loads content = Except.ok qs) :
    qs.length ≤ fields.length ∧ (fields.length ≤ 4 → qs.length ≤ 4) := by
  simp only [follow_up_questions_from_content] at hok
  by_cases hb : (strStartsWith (pyStrip content) "\x7b" &&
      strEndsWith (pyStrip content) "\x7d") = true
  · rw [if_pos hb, hload] at hok
    replace hok : (match collectQuestions (fields.map Prod.snd) with
        | Except.ok qs0 => Except.ok qs0
        | Except.error e => Except.error e) = Except.ok qs := hok
    cases hcq : collectQuestions (fields.map Prod.snd) with
    | error e =>
      rw [hcq] at hok
      cases hok
    | ok qs' =>
      rw [hcq] at hok
      cases hok
      have hlen := collectQuestions_length (fields.map Prod.snd) _ hcq
      rw [List.length_map] at hlen
      exact ⟨hlen, fun h4 => le_trans hlen h4⟩
  · rw [if_neg hb] at hok
    cases hok
    simp

/-! ## Properties of the buffered-response fallback -/

/-- An absent key means the Python `in` test is false. -/
theorem lookupKey_none_any (key : String) : ∀ (fs : List (String × Json)),
    lookupKey key fs = none → fs.any (fun kv => kv.1 == key) = false := by
  intro fs
  induction fs with
  | nil => intro _; rfl
  | cons kv rest ih =>
    intro h
    obtain ⟨k, v⟩ := kv
    rw [lookupKey] at h
    by_cases hk : (k == key) = true
    · rw [if_pos hk] at h
      cases h
    · rw [if_neg hk] at h
      simp only [List.any_cons, ih h, Bool.or_false]
      exact Bool.of_not_eq_true hk

/-- A present key means the Python `in` test is true. -/
theorem lookupKey_some_any (key : String) : ∀ (fs : List (String × Json)) (v : Json),
    lookupKey key fs = some v → fs.any (fun kv => kv.1 == key) = true := by
  intro fs
  induction fs with
  | nil => intro v h; cases h
  | cons kv rest ih =>
    intro v h
    obtain ⟨k, w⟩ := kv
    rw [lookupKey] at h
    by_cases hk : (k == key) = true
    · simp [List.any_cons, hk]
    · rw [if_neg hk] at h
      simp [List.any_cons, ih v h]

/-- C8: a buffered response with a success status whose JSON body is an
object with no `choices` key, or whose `choices` is the empty list, makes
`log_and_return_response` return exactly the fixed fallback greeting. -/
theorem buffered_no_choices_fallback (r : HttpResponse) (fields : List (String × Json))
    (hstatus : r.status < 400)
    (hbody : r.body = some (Json.obj fields))
    (hch : lookupKey "choices" fields = none ∨
      lookupKey "choices" fields = some (Json.arr [])) :
    log_and_return_response r = Except.ok (Json.str fallbackGreeting) := by
  have hrfs : raise_for_status r = Except.ok () := by
    rw [raise_for_status, if_neg (by omega)]
  rcases hch with hnone | hsome
  · have hany : fields.any (fun kv => kv.1 == "choices") = false :=
      lookupKey_none_any "choices" fields hnone
    by_cases ht : truthy (Json.obj fields) = true
    · simp [log_and_return_response, hrfs, hbody, ht, pyContains, hany]
    · simp [log_and_return_response, hrfs, hbody, ht]
  · have hany : fields.any (fun kv => kv.1 == "choices") = true :=
      lookupKey_some_any "choices" fields _ hsome
    by_cases ht : truthy (Json.obj fields) = true
    · simp [log_and_return_response, hrfs, hbody, ht, pyContains, hany, pyGetItem, hsome,
        truthy]
    · simp [log_and_return_response, hrfs, hbody, ht]

/-- Witness for C8: a 200-status response with the empty-object body
`\x7b\x7d` yields the fallback greeting. -/
theorem buffered_no_choices_fallback_witness :
    log_and_return_response (HttpResponse.mk 200 (some (Json.obj []))) =
      Except.ok (Json.str fallbackGreeting) :=
  buffered_no_choices_fallback (HttpResponse.mk 200 (some (Json.obj []))) []
    (by decide) rfl (Or.inl rfl)

/-- Witness for amended C5 at the C6 example: two questions from a
three-pair object, within both bounds. -/
theorem follow_up_at_most_field_count_witness :
    (["A?", "B?"] : List String).length ≤
      ([("q1", Json.str "A?"), ("q2", Json.str ""), ("q3", Json.str "B?")] :
        List (String × Json)).length ∧
    (([("q1", Json.str "A?"), ("q2", Json.str ""), ("q3", Json.str "B?")] :
        List (String × Json)).length ≤ 4 → (["A?", "B?"] : List String).length ≤ 4) :=
  follow_up_at_most_field_count loadsC6 "\x7b\"q1\":\"A?\",\"q2\":\"\",\"q3\":\"B?\"\x7d"
    [("q1", Json.str "A?"), ("q2", Json.str ""), ("q3", Json.str "B?")] ["A?", "B?"]
    (by rfl) (by rfl)
